import Mathlib

/-!
Verification of the calculator state store (`src/frontend/src/lib/store.ts`)
and the number formatter (`formatNumber` in the utils module) of the
`my-app` repository, as a shallow embedding in Lean 4.

Modelling conventions:
* JavaScript stateful store actions become pure functions `CalcState → CalcState`;
  zustand's `set` with a partial record is modelled by `{ s with ... }`
  record updates (fields not listed are unchanged, exactly like a merge).
* JavaScript builtins that the store calls (`eval`, `parseFloat`,
  `Number`, `Number.prototype.toString`, `new Decimal(...).toString()`)
  are not part of the repository; they are modelled by the fields of a
  `JSPrims` structure.  Theorems that hold for the store regardless of
  the builtins quantify over `JSPrims`; concrete evaluations instantiate
  it with `modelPrims`, a faithful executable model of the fragment of
  those builtins which the concrete inputs of the claims exercise.
* JavaScript numbers are modelled as exact fractions of machine-unbounded
  integers (`Frac`), plus `Infinity`/`-Infinity`/`NaN` (`JSVal`).  All
  numeric literals appearing in the exercised inputs are exactly
  representable in binary64, so no rounding is modelled; negative zero is
  not modelled.  Floating-point literal constants such as `1e-7` are
  modelled by their mathematical value.
-/

/-- An unreduced fraction of integers; the model of a finite JavaScript
number.  All constructions in this file keep `den` positive. -/
structure Frac where
  num : Int
  den : Int
deriving DecidableEq

/-- A JavaScript number: finite, `Infinity`, `-Infinity` or `NaN`. -/
inductive JSVal where
  | fin (q : Frac)
  | inf
  | negInf
  | nan
deriving DecidableEq

def Frac.isZero (a : Frac) : Bool := a.num == 0

/-- Positivity of the value of a fraction (sign-correct for any den). -/
def Frac.isPos (a : Frac) : Bool := 0 < a.num * a.den

/-- Negativity of the value of a fraction. -/
def Frac.isNeg (a : Frac) : Bool := a.num * a.den < 0

def Frac.add (a b : Frac) : Frac := ⟨a.num * b.den + b.num * a.den, a.den * b.den⟩

def Frac.sub (a b : Frac) : Frac := ⟨a.num * b.den - b.num * a.den, a.den * b.den⟩

def Frac.mul (a b : Frac) : Frac := ⟨a.num * b.num, a.den * b.den⟩

/-- Division of fractions, normalising the sign so `den` stays positive;
only used with `b` nonzero. -/
def Frac.div (a b : Frac) : Frac :=
  if b.num < 0 then ⟨-(a.num * b.den), -(a.den * b.num)⟩
  else ⟨a.num * b.den, a.den * b.num⟩

/-- Truncation toward zero of the value of `a / b`, as JavaScript
truncates for the `%` operator. -/
def Frac.truncQuot (a b : Frac) : Int := Int.tdiv (a.num * b.den) (a.den * b.num)

/-- `a < b` on values; assumes positive denominators (maintained everywhere). -/
def Frac.lt (a b : Frac) : Bool := a.num * b.den < b.num * a.den

def Frac.abs (a : Frac) : Frac := ⟨|a.num|, a.den⟩

/-- `Number.isInteger` on the modelled value. -/
def Frac.isInt (a : Frac) : Bool := a.num % a.den == 0

/-- JavaScript unary minus. -/
def jsNeg : JSVal → JSVal
  | .fin q => .fin ⟨-q.num, q.den⟩
  | .inf => .negInf
  | .negInf => .inf
  | .nan => .nan

/-- JavaScript `+` on numbers. -/
def jsAdd : JSVal → JSVal → JSVal
  | .nan, _ => .nan
  | _, .nan => .nan
  | .inf, .negInf => .nan
  | .negInf, .inf => .nan
  | .inf, _ => .inf
  | _, .inf => .inf
  | .negInf, _ => .negInf
  | _, .negInf => .negInf
  | .fin a, .fin b => .fin (a.add b)

/-- JavaScript binary `-` on numbers. -/
def jsSub (a b : JSVal) : JSVal := jsAdd a (jsNeg b)

/-- JavaScript `*` on numbers. -/
def jsMul : JSVal → JSVal → JSVal
  | .nan, _ => .nan
  | _, .nan => .nan
  | .fin a, .fin b => .fin (a.mul b)
  | .inf, .inf => .inf
  | .inf, .negInf => .negInf
  | .negInf, .inf => .negInf
  | .negInf, .negInf => .inf
  | .inf, .fin b => if b.isZero then .nan else if b.isPos then .inf else .negInf
  | .fin a, .inf => if a.isZero then .nan else if a.isPos then .inf else .negInf
  | .negInf, .fin b => if b.isZero then .nan else if b.isPos then .negInf else .inf
  | .fin a, .negInf => if a.isZero then .nan else if a.isPos then .negInf else .inf

/-- JavaScript `/` on numbers.  Division of a nonzero finite value by
(positive) zero yields a signed infinity, `0/0` yields `NaN`. -/
def jsDiv : JSVal → JSVal → JSVal
  | .nan, _ => .nan
  | _, .nan => .nan
  | .fin a, .fin b =>
    if b.isZero then
      if a.isZero then .nan else if a.isPos then .inf else .negInf
    else .fin (a.div b)
  | .fin _, .inf => .fin ⟨0, 1⟩
  | .fin _, .negInf => .fin ⟨0, 1⟩
  | .inf, .fin b => if b.isNeg then .negInf else .inf
  | .negInf, .fin b => if b.isNeg then .inf else .negInf
  | .inf, _ => .nan
  | .negInf, _ => .nan

/-- JavaScript `%` (truncated remainder) on numbers. -/
def jsMod : JSVal → JSVal → JSVal
  | .nan, _ => .nan
  | _, .nan => .nan
  | .fin a, .fin b =>
    if b.isZero then .nan
    else .fin (a.sub (b.mul ⟨a.truncQuot b, 1⟩))
  | .fin a, .inf => .fin a
  | .fin a, .negInf => .fin a
  | _, _ => .nan

/-- JavaScript `**` on numbers, on the integer-exponent fragment; a
non-integer exponent is outside the modelled fragment and yields `NaN`. -/
def jsPow : JSVal → JSVal → JSVal
  | .nan, _ => .nan
  | _, .nan => .nan
  | .fin a, .fin b =>
    if b.isInt then
      let n := Int.tdiv b.num b.den
      if 0 ≤ n then .fin ⟨a.num ^ n.toNat, a.den ^ n.toNat⟩
      else if a.isZero then .inf
      else .fin (Frac.div ⟨1, 1⟩ ⟨a.num ^ (-n).toNat, a.den ^ (-n).toNat⟩)
    else .nan
  | .fin a, .inf => if a.isZero then .fin ⟨0, 1⟩ else .inf
  | .fin a, .negInf => if a.isZero then .inf else .fin ⟨0, 1⟩
  | .inf, .fin b => if b.isZero then .fin ⟨1, 1⟩ else if b.isPos then .inf else .fin ⟨0, 1⟩
  | .negInf, .fin b => if b.isZero then .fin ⟨1, 1⟩ else if b.isPos then .negInf else .fin ⟨0, 1⟩
  | _, _ => .nan

/-! ### A model of JavaScript `eval` on the arithmetic fragment

The store feeds the rewritten input to `eval`.  The claims only exercise
`eval` on strings made of numeric literals, `+ - * / % **`, parentheses
and unary sign — or on strings on which `eval` throws.  The model below
evaluates exactly that closed grammar; any other construct (identifiers,
calls, lone symbols) yields `none`, modelling a thrown error. -/

inductive Tok where
  | num (q : Frac)
  | lparen
  | rparen
  | opAdd
  | opSub
  | opMul
  | opDiv
  | opMod
  | opPow
deriving DecidableEq

def digitsToNat (l : List Char) : Nat :=
  l.foldl (fun a c => a * 10 + (c.toNat - 48)) 0

/-- The value of a decimal literal with integer digits `ip` and
fractional digits `fp`. -/
def fracOfDigits (ip fp : List Char) : Frac :=
  ⟨(digitsToNat ip : Int) * 10 ^ fp.length + (digitsToNat fp : Int), (10 : Int) ^ fp.length⟩

/-- Fuel-indexed tokenizer; `none` models a `SyntaxError`.  The fuel is
always at least the number of remaining characters. -/
def tokenizeFuel : Nat → List Char → Option (List Tok)
  | _, [] => some []
  | 0, _ :: _ => none
  | f + 1, c :: cs =>
    if c = ' ' then tokenizeFuel f cs
    else if c = '(' then (tokenizeFuel f cs).map (fun ts => Tok.lparen :: ts)
    else if c = ')' then (tokenizeFuel f cs).map (fun ts => Tok.rparen :: ts)
    else if c = '+' then (tokenizeFuel f cs).map (fun ts => Tok.opAdd :: ts)
    else if c = '-' then (tokenizeFuel f cs).map (fun ts => Tok.opSub :: ts)
    else if c = '%' then (tokenizeFuel f cs).map (fun ts => Tok.opMod :: ts)
    else if c = '/' then (tokenizeFuel f cs).map (fun ts => Tok.opDiv :: ts)
    else if c = '*' then
      match cs with
      | '*' :: cs2 => (tokenizeFuel f cs2).map (fun ts => Tok.opPow :: ts)
      | _ => (tokenizeFuel f cs).map (fun ts => Tok.opMul :: ts)
    else if c.isDigit || c = '.' then
      let ip := (c :: cs).takeWhile Char.isDigit
      let r1 := (c :: cs).dropWhile Char.isDigit
      match r1 with
      | '.' :: r2 =>
        let fp := r2.takeWhile Char.isDigit
        let rest := r2.dropWhile Char.isDigit
        if ip.isEmpty && fp.isEmpty then none
        else (tokenizeFuel f rest).map (fun ts => Tok.num (fracOfDigits ip fp) :: ts)
      | _ => (tokenizeFuel f r1).map (fun ts => Tok.num (fracOfDigits ip []) :: ts)
    else none

def tokenize (s : String) : Option (List Tok) :=
  tokenizeFuel s.data.length s.data

/-- Binary-operator table: precedence and right-associativity. -/
def opInfo : Tok → Option (Nat × Bool)
  | Tok.opPow => some (3, true)
  | Tok.opMul => some (2, false)
  | Tok.opDiv => some (2, false)
  | Tok.opMod => some (2, false)
  | Tok.opAdd => some (1, false)
  | Tok.opSub => some (1, false)
  | _ => none

def applyOp : Tok → JSVal → JSVal → JSVal
  | Tok.opPow, a, b => jsPow a b
  | Tok.opMul, a, b => jsMul a b
  | Tok.opDiv, a, b => jsDiv a b
  | Tok.opMod, a, b => jsMod a b
  | Tok.opAdd, a, b => jsAdd a b
  | Tok.opSub, a, b => jsSub a b
  | _, a, _ => a

/-- Parser state tag for the fuel-indexed precedence-climbing parser. -/
inductive PK where
  | prim
  | expr (minPrec : Nat)
  | loop (minPrec : Nat) (lhs : JSVal)

/-- Precedence-climbing parser-evaluator over the token list; `none`
models a `SyntaxError`. -/
def parseGo : Nat → PK → List Tok → Option (JSVal × List Tok)
  | 0, _, _ => none
  | f + 1, PK.prim, toks =>
    match toks with
    | Tok.num q :: r => some (JSVal.fin q, r)
    | Tok.lparen :: r =>
      match parseGo f (PK.expr 0) r with
      | some (v, Tok.rparen :: r2) => some (v, r2)
      | _ => none
    | Tok.opSub :: r => (parseGo f PK.prim r).map (fun vr => (jsNeg vr.1, vr.2))
    | Tok.opAdd :: r => parseGo f PK.prim r
    | _ => none
  | f + 1, PK.expr minPrec, toks =>
    match parseGo f PK.prim toks with
    | some (lhs, rest) => parseGo f (PK.loop minPrec lhs) rest
    | none => none
  | f + 1, PK.loop minPrec lhs, toks =>
    match toks with
    | t :: rest =>
      match opInfo t with
      | some (prec, rightAssoc) =>
        if minPrec ≤ prec then
          match parseGo f (PK.expr (if rightAssoc then prec else prec + 1)) rest with
          | some (rhs, rest2) => parseGo f (PK.loop minPrec (applyOp t lhs rhs)) rest2
          | none => none
        else some (lhs, toks)
      | none => some (lhs, toks)
    | [] => some (lhs, [])

/-- The model of `eval` on a rewritten input string: tokenize, parse and
evaluate; `none` models any thrown error. -/
def evalJS (s : String) : Option JSVal :=
  match tokenize s with
  | some toks =>
    match parseGo (4 * toks.length + 4) (PK.expr 0) toks with
    | some (v, []) => some v
    | _ => none
  | none => none

/-! ### Models of the remaining JavaScript builtins -/

def digitChar (n : Nat) : Char := Char.ofNat (48 + n)

def natDigits : Nat → Nat → List Char
  | 0, _ => []
  | f + 1, n => if n < 10 then [digitChar n] else natDigits f (n / 10) ++ [digitChar (n % 10)]

def natToStr (n : Nat) : String := String.mk (natDigits (n + 1) n)

def intToStr : Int → String
  | Int.ofNat n => natToStr n
  | Int.negSucc n => "-" ++ natToStr (n + 1)

/-- Model of `new Decimal(v).toString()` (and of `Number.prototype.toString`)
for a finite value.  The two agree on integers of this magnitude, and the
concrete runs in this file only ever render integer values; rendering of
non-integer values is outside the modelled fragment. -/
def fracToStr (a : Frac) : String :=
  if a.isInt then intToStr (Int.tdiv a.num a.den) else ""

/-- Model of `parseFloat` on the decimal-literal fragment (optional sign,
digits, optional fraction; trailing garbage ignored as in JavaScript).
Exponent suffixes are outside the modelled fragment. -/
def parseFloatModel (s : String) : JSVal :=
  let cs := s.data.dropWhile (fun c => c = ' ')
  let sgn : Int := match cs with
    | '-' :: _ => -1
    | _ => 1
  let cs2 := match cs with
    | '-' :: t => t
    | '+' :: t => t
    | _ => cs
  let ip := cs2.takeWhile Char.isDigit
  let r1 := cs2.dropWhile Char.isDigit
  let fp := match r1 with
    | '.' :: t => t.takeWhile Char.isDigit
    | _ => []
  if ip.isEmpty && fp.isEmpty then JSVal.nan
  else JSVal.fin
    ⟨sgn * ((digitsToNat ip : Int) * 10 ^ fp.length + (digitsToNat fp : Int)),
      (10 : Int) ^ fp.length⟩

/-- Decimal-literal body (after an optional sign): `digits ['.' digits]`
or `'.' digits`, nothing else. -/
def decLiteralCore (l : List Char) : Bool :=
  let ip := l.takeWhile Char.isDigit
  let r := l.dropWhile Char.isDigit
  match r with
  | [] => !ip.isEmpty
  | '.' :: t =>
    let fp := t.takeWhile Char.isDigit
    let rest := t.dropWhile Char.isDigit
    (!ip.isEmpty || !fp.isEmpty) && rest.isEmpty
  | _ => false

/-- Model of `!isNaN(Number(v))`: the empty / all-blank string converts
to `0`, otherwise the trimmed string must be a signed decimal literal.
(`Infinity`, hex and exponent forms are outside the modelled fragment.) -/
def numberNotNaNModel (s : String) : Bool :=
  let t := ((s.data.dropWhile (fun c => c = ' ')).reverse.dropWhile (fun c => c = ' ')).reverse
  match t with
  | [] => true
  | '-' :: r => decLiteralCore r
  | '+' :: r => decLiteralCore r
  | r => decLiteralCore r

/-- The bundle of JavaScript builtins the store calls.  Store theorems
that do not depend on builtin behaviour quantify over this structure;
concrete runs use `modelPrims`. -/
structure JSPrims where
  evalStr : String → Option JSVal
  decToStr : Frac → String
  numToStr : Frac → String
  parseFloatStr : String → JSVal
  numberNotNaN : String → Bool

/-- The executable model of the builtins. -/
def modelPrims : JSPrims :=
  { evalStr := evalJS
    decToStr := fracToStr
    numToStr := fracToStr
    parseFloatStr := parseFloatModel
    numberNotNaN := numberNotNaNModel }

/-- `new Decimal(eval-result).toString()`: decimal.js renders the
non-finite numbers as shown and never throws on a number argument. -/
def decimalToString (p : JSPrims) : JSVal → String
  | .fin q => p.decToStr q
  | .inf => "Infinity"
  | .negInf => "-Infinity"
  | .nan => "NaN"

/-- `Number.prototype.toString` on a full JavaScript number. -/
def jsValToString (p : JSPrims) : JSVal → String
  | .fin q => p.numToStr q
  | .inf => "Infinity"
  | .negInf => "-Infinity"
  | .nan => "NaN"

/-! ### String helpers: global literal replacement, as `String.replace(/lit/g, rep)` -/

/-- Fuel-indexed global replacement of the literal pattern `pat` by `rep`,
leftmost first, the replacement never rescanned — exactly the semantics of
JavaScript `String.prototype.replace` with a global literal regex.  The
fuel is always at least the number of remaining characters. -/
def replaceAllFuel (pat rep : List Char) : Nat → List Char → List Char
  | _, [] => []
  | 0, l => l
  | f + 1, c :: cs =>
    if !pat.isEmpty && pat.isPrefixOf (c :: cs) then
      rep ++ replaceAllFuel pat rep f (List.drop (pat.length - 1) cs)
    else c :: replaceAllFuel pat rep f cs

def strReplaceAll (s pat rep : String) : String :=
  String.mk (replaceAllFuel pat.data rep.data s.data.length s.data)

/-- `s.slice(0, -1)`: drop the last character. -/
def strDropLast (s : String) : String := String.mk s.data.dropLast


/-! ### The formatter (`formatNumber` in the utils module)

`formatNumber(value: number | string)` takes either a string (returned
unchanged) or a number.  A number is modelled by `JSFloat`: its exact
value plus its JavaScript renderings `String(v)`, `v.toExponential(10)`
and `v.toPrecision(10)`, which are library primitives, carried as data. -/

/-- A finite JavaScript number together with its renderings. -/
structure JSFloat where
  val : Frac
  toStr : String
  toExp : String
  toPrec : String

/-- A full `number` argument of `formatNumber`. -/
inductive JSNum where
  | fin (f : JSFloat)
  | inf
  | negInf
  | nan

/-- The `number | string` argument type of `formatNumber`. -/
inductive NumOrStr where
  | num (n : JSNum)
  | str (s : String)

/-- `.replace(/\.?0+$/, '')`: strip the maximal run of trailing zeros
and, when the run is nonempty and preceded by a dot, that dot too. -/
def stripTrailZeros (s : String) : String :=
  let r := s.data.reverse
  let r1 := r.dropWhile (fun c => c = '0')
  if r1.length = r.length then s
  else
    match r1 with
    | '.' :: t => String.mk t.reverse
    | _ => String.mk r1.reverse

/-- `Math.abs(value) > 1e10 || (Math.abs(value) < 1e-7 && value !== 0)`,
with the float literals modelled by their mathematical values. -/
def sciRange (v : Frac) : Bool :=
  Frac.lt ⟨10 ^ 10, 1⟩ v.abs || (Frac.lt v.abs ⟨1, 10 ^ 7⟩ && !v.isZero)

/-- `formatNumber` from the utils module. -/
def formatNumber : NumOrStr → String
  | .str s => s
  | .num .inf => "∞"
  | .num .negInf => "-∞"
  | .num .nan => "Error"
  | .num (.fin f) =>
    if f.val.isInt = true ∨ f.toStr.length < 15 then f.toStr
    else if sciRange f.val = true then f.toExp
    else stripTrailZeros f.toPrec

/-! ### The calculator store (`src/frontend/src/lib/store.ts`) -/

inductive CalculatorMode where
  | DEG
  | RAD
  | GRAD
deriving DecidableEq

/-- One history record `{ input, result, latex? }`. -/
structure HistoryEntry where
  input : String
  result : String
  latex : Option String
deriving DecidableEq

/-- The zustand store state (`CalculatorState` minus the action closures). -/
structure CalcState where
  display : String
  input : String
  result : String
  latex : String
  memory : List (String × String)
  history : List HistoryEntry
  mode : CalculatorMode
  isShiftActive : Bool
  isInverseActive : Bool
  isHyperbolicActive : Bool
  precision : Nat
  error : Option String
deriving DecidableEq

/-- The creation-time defaults of the store. -/
def initialState : CalcState :=
  { display := "0"
    input := ""
    result := ""
    latex := ""
    memory := []
    history := []
    mode := CalculatorMode.DEG
    isShiftActive := false
    isInverseActive := false
    isHyperbolicActive := false
    precision := 10
    error := none }

/-- Object lookup `memory[key]`, `undefined` as `none`. -/
def memLookup : List (String × String) → String → Option String
  | [], _ => none
  | (k', v') :: rest, k => if k' = k then some v' else memLookup rest k

/-- `{ ...memory, [key]: v }`: an existing key keeps its position and is
overwritten, a new key is appended. -/
def memInsert : List (String × String) → String → String → List (String × String)
  | [], k, v => [(k, v)]
  | (k', v') :: rest, k, v =>
    if k' = k then (k, v) :: rest else (k', v') :: memInsert rest k v

/-- `delete memory[key]`. -/
def memErase : List (String × String) → String → List (String × String)
  | [], _ => []
  | (k', v') :: rest, k => if k' = k then rest else (k', v') :: memErase rest k

/-- Truthiness of a possibly-undefined string: `undefined` and `""` are falsy. -/
def jsTruthyOpt : Option String → Bool
  | none => false
  | some s => s ≠ ""

/-- `a || b` on strings. -/
def jsOrS (a b : String) : String := if a ≠ "" then a else b

/-- `isOperator` helper of the store. -/
def isOperator (value : String) : Bool :=
  (["+", "-", "*", "/", "^", "%"] : List String).contains value

/-- The `${mode === 'DEG' ? '* Math.PI / 180' : ''}` trig replacement
string: `Math.<name>(` followed by the scale text and a closing paren. -/
def trigRepl (name : String) (mode : CalculatorMode) : String :=
  "Math." ++ name ++ "(" ++ (if mode = CalculatorMode.DEG then "* Math.PI / 180" else "") ++ ")"

/-- `prepareInputForCalculation`: the ordered chain of global textual
substitutions applied before evaluation. -/
def prepareInputForCalculation (input : String) (mode : CalculatorMode) : String :=
  let s1 := strReplaceAll input "^" "**"
  let s2 := strReplaceAll s1 "π" "Math.PI"
  let s3 := strReplaceAll s2 "e" "Math.E"
  let s4 := strReplaceAll s3 "sin(" (trigRepl "sin" mode)
  let s5 := strReplaceAll s4 "cos(" (trigRepl "cos" mode)
  let s6 := strReplaceAll s5 "tan(" (trigRepl "tan" mode)
  let s7 := strReplaceAll s6 "log(" "Math.log10("
  let s8 := strReplaceAll s7 "ln(" "Math.log("
  let s9 := strReplaceAll s8 "sqrt(" "Math.sqrt("
  strReplaceAll s9 "abs(" "Math.abs("

/-- `generateLatex`. -/
def generateLatex (input result : String) : String := input ++ " = " ++ result

/-- `appendToInput`.  The token argument is tested with
`!isNaN(Number(value))` and `isOperator`; each `set` merges only the
listed fields. -/
def appendToInput (p : JSPrims) (value : String) (s : CalcState) : CalcState :=
  if s.result ≠ "" ∧ p.numberNotNaN value = true ∧ isOperator value = false then
    { s with input := value, display := value, result := "" }
  else if s.result ≠ "" ∧ isOperator value = true then
    { s with input := s.result ++ value, display := s.result ++ value, result := "" }
  else
    { s with input := s.input ++ value, display := s.input ++ value, error := none }

/-- `clearInput`. -/
def clearInput (s : CalcState) : CalcState :=
  { s with input := "", display := "0", error := none }

/-- `clearAll`. -/
def clearAll (s : CalcState) : CalcState :=
  { s with input := "", display := "0", result := "", latex := "", error := none }

/-- `calculate`: empty input is a no-op; otherwise the input is rewritten
and fed to `eval`, the numeric outcome is wrapped in a `Decimal` and
rendered, passed (as a string) through `formatNumber`, and on success the
state is updated and an entry is prepended to the history, trimmed to 100;
a thrown error only sets the error message. -/
def calculate (p : JSPrims) (s : CalcState) : CalcState :=
  if s.input = "" then s
  else
    match p.evalStr (prepareInputForCalculation s.input s.mode) with
    | none => { s with error := some "Error in calculation" }
    | some v =>
      let result := decimalToString p v
      let formattedResult := formatNumber (NumOrStr.str result)
      { s with
        result := formattedResult
        display := formattedResult
        latex := generateLatex s.input formattedResult
        history :=
          ({ input := s.input, result := formattedResult,
             latex := some (generateLatex s.input formattedResult) } :: s.history).take 100
        error := none }

/-- `setMode`. -/
def setMode (m : CalculatorMode) (s : CalcState) : CalcState := { s with mode := m }

/-- `toggleShift`. -/
def toggleShift (s : CalcState) : CalcState := { s with isShiftActive := !s.isShiftActive }

/-- `toggleInverse`. -/
def toggleInverse (s : CalcState) : CalcState := { s with isInverseActive := !s.isInverseActive }

/-- `toggleHyperbolic`. -/
def toggleHyperbolic (s : CalcState) : CalcState :=
  { s with isHyperbolicActive := !s.isHyperbolicActive }

/-- `storeInMemory(key, value?)`: choose `value || result || display || input`;
if that is truthy, either accumulate (`parseFloat` sum, when no explicit
truthy `value` was given and the slot is truthy) or overwrite. -/
def storeInMemory (p : JSPrims) (key : String) (value : Option String) (s : CalcState) :
    CalcState :=
  let valueToStore := jsOrS (jsOrS (jsOrS (value.getD "") s.result) s.display) s.input
  if valueToStore ≠ "" then
    if value.getD "" = "" ∧ jsTruthyOpt (memLookup s.memory key) = true then
      let currentValue := p.parseFloatStr ((memLookup s.memory key).getD "")
      let newValue := jsAdd currentValue (p.parseFloatStr valueToStore)
      { s with memory := memInsert s.memory key (jsValToString p newValue) }
    else
      { s with memory := memInsert s.memory key valueToStore }
  else s

/-- `recallFromMemory(key)`: a falsy slot (missing or empty) is a silent
no-op; otherwise result-reset or append semantics. -/
def recallFromMemory (key : String) (s : CalcState) : CalcState :=
  match memLookup s.memory key with
  | some v =>
    if v ≠ "" then
      if s.result ≠ "" then { s with input := v, display := v, result := "" }
      else { s with input := s.input ++ v, display := s.input ++ v }
    else s
  | none => s

/-- `clearMemory(key?)`. -/
def clearMemory (key : Option String) (s : CalcState) : CalcState :=
  match key with
  | some k => { s with memory := memErase s.memory k }
  | none => { s with memory := [] }

/-- `clearHistory`. -/
def clearHistory (s : CalcState) : CalcState := { s with history := [] }

/-- `setPrecision`. -/
def setPrecision (n : Nat) (s : CalcState) : CalcState := { s with precision := n }

/-- `backspace`. -/
def backspace (s : CalcState) : CalcState :=
  if s.input = "" then s
  else
    let newInput := strDropLast s.input
    { s with
      input := newInput
      display := if newInput ≠ "" then newInput else "0"
      result := ""
      error := none }

/-! ### Action language: every operation of the store -/

/-- One user-triggered store action. -/
inductive StoreAction where
  | appendTo (value : String)
  | clearInputA
  | clearAllA
  | calcA
  | setModeA (m : CalculatorMode)
  | toggleShiftA
  | toggleInverseA
  | toggleHyperbolicA
  | storeMem (key : String) (value : Option String)
  | recallMem (key : String)
  | clearMem (key : Option String)
  | clearHist
  | setPrecisionA (n : Nat)
  | backspaceA

/-- Dispatch of an action on the state. -/
def applyAction (p : JSPrims) : StoreAction → CalcState → CalcState
  | StoreAction.appendTo v, s => appendToInput p v s
  | StoreAction.clearInputA, s => clearInput s
  | StoreAction.clearAllA, s => clearAll s
  | StoreAction.calcA, s => calculate p s
  | StoreAction.setModeA m, s => setMode m s
  | StoreAction.toggleShiftA, s => toggleShift s
  | StoreAction.toggleInverseA, s => toggleInverse s
  | StoreAction.toggleHyperbolicA, s => toggleHyperbolic s
  | StoreAction.storeMem k v, s => storeInMemory p k v s
  | StoreAction.recallMem k, s => recallFromMemory k s
  | StoreAction.clearMem k, s => clearMemory k s
  | StoreAction.clearHist, s => clearHistory s
  | StoreAction.setPrecisionA n, s => setPrecision n s
  | StoreAction.backspaceA, s => backspace s

/-- Run a sequence of actions from a state. -/
def runActions (p : JSPrims) (acts : List StoreAction) (s : CalcState) : CalcState :=
  acts.foldl (fun st a => applyAction p a st) s

/-! ### Shared concrete states and helpers for the claims -/

/-- The state right before pressing `=` on the input `1/0`. -/
def stateDiv0 : CalcState := { initialState with input := "1/0", display := "1/0" }

/-- The state right before pressing `=` on the input `sin(30)` (mode DEG). -/
def stateSin30 : CalcState := { initialState with input := "sin(30)", display := "sin(30)" }

/-- A state with an active result and an active error (reachable: compute
`1`, append `(`, calculate — the failure keeps the old result). -/
def stateResErr : CalcState :=
  { initialState with
    input := "1("
    display := "1("
    result := "1"
    error := some "Error in calculation" }

/-- A state whose current result is the numeric string `2`. -/
def stateRes2 : CalcState := { initialState with result := "2" }

/-- Iterate a state transformer `n` times. -/
def iterN (f : CalcState → CalcState) : Nat → CalcState → CalcState
  | 0, s => s
  | n + 1, s => iterN f n (f s)

theorem memLookup_memInsert (m : List (String × String)) (k v : String) :
    memLookup (memInsert m k v) k = some v := by
  induction m with
  | nil => simp [memInsert, memLookup]
  | cons hd t ih =>
    by_cases hk : hd.1 = k <;>
      simp [memInsert, memLookup, hk, ih]

theorem appendToInput_history (p : JSPrims) (v : String) (s : CalcState) :
    (appendToInput p v s).history = s.history := by
  unfold appendToInput
  repeat' split
  all_goals rfl

theorem storeInMemory_history (p : JSPrims) (k : String) (v : Option String) (s : CalcState) :
    (storeInMemory p k v s).history = s.history := by
  unfold storeInMemory
  dsimp only
  repeat' split
  all_goals rfl

theorem recallFromMemory_history (k : String) (s : CalcState) :
    (recallFromMemory k s).history = s.history := by
  unfold recallFromMemory
  repeat' split
  all_goals rfl

theorem backspace_history (s : CalcState) : (backspace s).history = s.history := by
  unfold backspace
  split
  all_goals rfl

/-- The only two shapes `calculate` can give the history: untouched, or a
new entry prepended with the list trimmed to 100. -/
theorem calculate_history_shape (p : JSPrims) (s : CalcState) :
    (calculate p s).history = s.history ∨
      ∃ e, (calculate p s).history = (e :: s.history).take 100 := by
  unfold calculate
  split
  · exact Or.inl rfl
  · split
    · exact Or.inl rfl
    · exact Or.inr ⟨_, rfl⟩

theorem applyAction_history_le (p : JSPrims) (a : StoreAction) (s : CalcState)
    (h : s.history.length ≤ 100) : (applyAction p a s).history.length ≤ 100 := by
  cases a with
  | appendTo v => simpa only [applyAction, appendToInput_history] using h
  | clearInputA => simpa only [applyAction, clearInput] using h
  | clearAllA => simpa only [applyAction, clearAll] using h
  | calcA =>
    rcases calculate_history_shape p s with hc | ⟨e, hc⟩
    · simpa only [applyAction, hc] using h
    · simp only [applyAction, hc]
      exact List.length_take_le 100 _
  | setModeA m => simpa only [applyAction, setMode] using h
  | toggleShiftA => simpa only [applyAction, toggleShift] using h
  | toggleInverseA => simpa only [applyAction, toggleInverse] using h
  | toggleHyperbolicA => simpa only [applyAction, toggleHyperbolic] using h
  | storeMem k v => simpa only [applyAction, storeInMemory_history] using h
  | recallMem k => simpa only [applyAction, recallFromMemory_history] using h
  | clearMem k =>
    cases k <;> simp only [applyAction, clearMemory] <;> exact h
  | clearHist => simp [applyAction, clearHistory]
  | setPrecisionA n => simpa only [applyAction, setPrecision] using h
  | backspaceA => simpa only [applyAction, backspace_history] using h

theorem runActions_history_le (p : JSPrims) (acts : List StoreAction) (s : CalcState)
    (h : s.history.length ≤ 100) : (runActions p acts s).history.length ≤ 100 := by
  induction acts generalizing s with
  | nil => exact h
  | cons a t ih =>
    exact ih (applyAction p a s) (applyAction_history_le p a s h)

/-! ### The claims -/

/-- Claim C1, counterexample.  The claim states that on input `1/0`,
`calculate` sets a non-empty error, leaves the display unchanged and
leaves the history unchanged.  In fact `eval("1/0")` yields `Infinity`,
`new Decimal(Infinity)` does not throw, and the success path runs: the
error is `none`, the display changes to `Infinity` and a history entry is
prepended — all three parts of the claim fail at this input. -/
theorem C1_divzero_counterexample :
    (calculate modelPrims stateDiv0).error = none ∧
    (calculate modelPrims stateDiv0).display ≠ stateDiv0.display ∧
    (calculate modelPrims stateDiv0).history ≠ stateDiv0.history := by
  decide

/-- Claim C1, amended.  For the state with input `1/0` (default mode),
`calculate` succeeds: result and display become `Infinity`, the error is
cleared to `none`, and the entry `{1/0, Infinity}` is prepended to the
history. -/
theorem C1_divzero_amended :
    (calculate modelPrims stateDiv0).result = "Infinity" ∧
    (calculate modelPrims stateDiv0).display = "Infinity" ∧
    (calculate modelPrims stateDiv0).error = none ∧
    (calculate modelPrims stateDiv0).history =
      [{ input := "1/0", result := "Infinity", latex := some "1/0 = Infinity" }] := by
  decide

/-- Claim C2.  The claim states that `sin(30)` in DEG mode evaluates to
`0.5`, the rewrite scaling exactly the immediate trig argument by π/180.
The code instead rewrites `sin(` to `Math.sin(* Math.PI / 180)` — the
scale factor is inserted *before* the argument, inside an immediately
closed call — so the rewritten string `Math.sin(* Math.PI / 180)30)` is a
syntax error, `eval` throws, and `calculate` sets the error message
instead of any result.  (In RAD/GRAD mode the rewrite gives
`Math.sin()30)`, equally broken: the rewrite can never produce a working
sine call, contradicting its stated purpose of replacing the functions
with their JavaScript equivalents.) -/
theorem C2_sin_deg_code_bug :
    prepareInputForCalculation "sin(30)" CalculatorMode.DEG
        = "Math.sin(* Math.PI / 180)30)" ∧
    evalJS "Math.sin(* Math.PI / 180)30)" = none ∧
    (calculate modelPrims stateSin30).error = some "Error in calculation" ∧
    (calculate modelPrims stateSin30).result ≠ "0.5" ∧
    prepareInputForCalculation "sin(30)" CalculatorMode.RAD = "Math.sin()30)" := by
  decide

/-- Claim C3.  Every state reachable from the initial state by any
sequence of store actions (under any behaviour of the builtins) has at
most 100 history entries; and `calculate` only ever leaves the history
unchanged or prepends one entry and trims the list to the 100 most
recent — so a 101st entry evicts the oldest of a full most-recent-first
list. -/
theorem C3_history_invariant :
    (∀ (p : JSPrims) (acts : List StoreAction),
        (runActions p acts initialState).history.length ≤ 100) ∧
    (∀ (p : JSPrims) (s : CalcState),
        (calculate p s).history = s.history ∨
          ∃ e, (calculate p s).history = (e :: s.history).take 100) := by
  constructor
  · intro p acts
    exact runActions_history_le p acts initialState (by decide)
  · intro p s
    exact calculate_history_shape p s

/-- Claim C10.  The rewrite replaces every occurrence of the letter `e`
with `Math.E`, including inside scientific-notation literals: in every
mode, `2e3` is rewritten to `2Math.E3`, not kept as the literal 2000. -/
theorem C10_e_rewrite_in_literal (m : CalculatorMode) :
    prepareInputForCalculation "2e3" m = "2Math.E3" ∧ "2Math.E3" ≠ "2e3" := by
  cases m <;> exact ⟨by decide, by decide⟩

/-- Claim C4, counterexample.  The claim states that `appendToInput`
clears any active error for every state and token, including when a prior
result is present.  But the two result-reset branches of the source merge
only `input`/`display`/`result` into the state; `error` is not in the
partial update, so an active error survives.  Concretely: from a state
with result `1` and an active error, appending the numeric token `2`
takes the first branch and leaves the error set. -/
theorem C4_append_error_counterexample :
    (appendToInput modelPrims "2" stateResErr).error = some "Error in calculation" ∧
    stateResErr.error ≠ none := by
  decide

/-- Claim C4, amended.  `appendToInput` clears the error exactly on the
plain-append branch: whenever no result is present, or the token is
neither numeric (per `Number`) nor an operator, the error becomes `none`;
on the two result-reset branches (result present and the token numeric or
an operator) the error is left unchanged. -/
theorem C4_append_error_amended :
    (∀ (p : JSPrims) (v : String) (s : CalcState),
        s.result = "" ∨ (p.numberNotNaN v = false ∧ isOperator v = false) →
        (appendToInput p v s).error = none) ∧
    (∀ (p : JSPrims) (v : String) (s : CalcState),
        s.result ≠ "" → (p.numberNotNaN v = true ∨ isOperator v = true) →
        (appendToInput p v s).error = s.error) := by
  constructor
  · rintro p v s (h | ⟨hn, ho⟩)
    · unfold appendToInput
      rw [if_neg (by simp [h]), if_neg (by simp [h])]
    · unfold appendToInput
      rw [if_neg (by simp [hn]), if_neg (by simp [ho])]
  · intro p v s hr hvo
    unfold appendToInput
    by_cases ho : isOperator v = true
    · by_cases hn : p.numberNotNaN v = true
      · rw [if_neg (by simp [ho]), if_pos ⟨hr, ho⟩]
      · rw [if_neg (by simp [hn]), if_pos ⟨hr, ho⟩]
    · have hn : p.numberNotNaN v = true := by
        rcases hvo with h | h
        · exact h
        · exact absurd h ho
      rw [if_pos ⟨hr, hn, by simpa using ho⟩]

/-- Claim C4, witness for the amended theorem: appending `1` to the
initial state clears the error, and appending the operator `+` to a state
with an active result and error leaves the error untouched. -/
theorem C4_append_error_amended_witness :
    (appendToInput modelPrims "1" initialState).error = none ∧
    (appendToInput modelPrims "+" stateResErr).error = stateResErr.error := by
  exact ⟨C4_append_error_amended.1 modelPrims "1" initialState (Or.inl rfl),
    C4_append_error_amended.2 modelPrims "+" stateResErr (by decide) (Or.inr (by decide))⟩

/-- The integer value 20000000000 = 2·10^10 as a `formatNumber` argument,
with its true JavaScript renderings. -/
def c5Big : JSFloat :=
  { val := ⟨20000000000, 1⟩
    toStr := "20000000000"
    toExp := "2.0000000000e+10"
    toPrec := "2.000000000e+10" }

/-- Claim C5, counterexample.  The claim states that every finite value of
magnitude above 1e10 is rendered in scientific notation with 10
significant digits.  But `formatNumber` first returns `value.toString()`
unchanged whenever the value is an integer or its string is shorter than
15 characters; 2·10^10 has magnitude above 1e10 yet is returned as
`20000000000`, not as its 10-significant-digit scientific form
`2.0000000000e+10`. -/
theorem C5_format_counterexample :
    Frac.lt ⟨10 ^ 10, 1⟩ c5Big.val.abs = true ∧
    formatNumber (NumOrStr.num (JSNum.fin c5Big)) = "20000000000" ∧
    formatNumber (NumOrStr.num (JSNum.fin c5Big)) ≠ c5Big.toExp := by
  decide

/-- Claim C5, amended.  The scientific-notation branch applies only after
the as-is branch is passed: for every finite value that is not an integer
and whose plain rendering is at least 15 characters long, with magnitude
above 1e10 or (nonzero and below 1e-7), `formatNumber` returns
`value.toExponential(10)`, the scientific notation at 10 significant
digits. -/
theorem C5_format_amended (f : JSFloat)
    (hint : f.val.isInt = false)
    (hlen : ¬ f.toStr.length < 15)
    (hmag : sciRange f.val = true) :
    formatNumber (NumOrStr.num (JSNum.fin f)) = f.toExp := by
  show (if f.val.isInt = true ∨ f.toStr.length < 15 then f.toStr
    else if sciRange f.val = true then f.toExp else stripTrailZeros f.toPrec) = f.toExp
  rw [if_neg (by simp [hint, hlen]), if_pos hmag]

/-- The value 12345678901234.5 (exactly representable in binary64) with
its true JavaScript renderings: a non-integer of magnitude above 1e10
whose plain rendering is 16 characters long. -/
def c5NonInt : JSFloat :=
  { val := ⟨24691357802469, 2⟩
    toStr := "12345678901234.5"
    toExp := "1.2345678901e+13"
    toPrec := "1.234567890e+13" }

/-- Claim C5, witness for the amended theorem at 12345678901234.5. -/
theorem C5_format_amended_witness :
    formatNumber (NumOrStr.num (JSNum.fin c5NonInt)) = "1.2345678901e+13" := by
  exact C5_format_amended c5NonInt (by decide) (by decide) (by decide)

/-- Claim C7.  Recalling a slot key that is not present in the memory bank
leaves the whole state unchanged: the slot lookup is `undefined`, which is
falsy, so the action performs no update and sets no error. -/
theorem C7_recall_missing_noop (s : CalcState) (key : String)
    (h : memLookup s.memory key = none) : recallFromMemory key s = s := by
  unfold recallFromMemory
  rw [h]

/-- Claim C7, witness: recalling `M` from the initial (empty) memory bank
is a no-op. -/
theorem C7_recall_missing_noop_witness :
    recallFromMemory "M" initialState = initialState := by
  exact C7_recall_missing_noop initialState "M" rfl

/-- Claim C6.  Memory accumulate law: from a state whose slot `key` is
empty and whose current result is the non-empty string `a`, storing with
no explicit value and then (with current result `b`) storing again leaves
the slot holding the rendered numeric sum of `parseFloat a` and
`parseFloat b` — M+ semantics, not an overwrite. -/
theorem C6_memory_accumulate (p : JSPrims) (key a b : String) (s : CalcState)
    (hmem : memLookup s.memory key = none) (hres : s.result = a)
    (ha : a ≠ "") (hb : b ≠ "") :
    memLookup (storeInMemory p key none
        { storeInMemory p key none s with result := b }).memory key =
      some (jsValToString p (jsAdd (p.parseFloatStr a) (p.parseFloatStr b))) := by
  have h1 : storeInMemory p key none s = { s with memory := memInsert s.memory key a } := by
    unfold storeInMemory
    dsimp only
    simp [jsOrS, hres, ha, hmem, jsTruthyOpt]
  rw [h1]
  unfold storeInMemory
  dsimp only
  simp [jsOrS, hb, ha, jsTruthyOpt, memLookup_memInsert]

/-- Claim C6, witness: result `2` stored into the empty slot `M`, then
result `3` stored again, leaves `M = 5`. -/
theorem C6_memory_accumulate_witness :
    memLookup (storeInMemory modelPrims "M" none
        { storeInMemory modelPrims "M" none stateRes2 with result := "3" }).memory "M" =
      some "5" := by
  have h := C6_memory_accumulate modelPrims "M" "2" "3" stateRes2 rfl rfl
    (by decide) (by decide)
  exact h.trans (by decide)

theorem appendChars_state (p : JSPrims) (cs : List Char) (s : CalcState)
    (h : s.result = "") :
    (cs.foldl (fun st c => appendToInput p (String.mk [c]) st) s).input.data
        = s.input.data ++ cs ∧
    (cs.foldl (fun st c => appendToInput p (String.mk [c]) st) s).result = "" := by
  induction cs generalizing s with
  | nil => exact ⟨by simp, h⟩
  | cons c t ih =>
    rw [List.foldl_cons]
    have hb : appendToInput p (String.mk [c]) s
        = { s with input := s.input ++ String.mk [c],
                   display := s.input ++ String.mk [c], error := none } := by
      unfold appendToInput
      rw [if_neg (by simp [h]), if_neg (by simp [h])]
    rw [hb]
    have h2 := ih { s with input := s.input ++ String.mk [c],
                           display := s.input ++ String.mk [c], error := none } h
    refine ⟨?_, h2.2⟩
    rw [h2.1]
    show (s.input.data ++ [c]) ++ t = s.input.data ++ (c :: t)
    simp

theorem backspace_iterN (t : List Char) :
    ∀ (l : List Char) (s : CalcState), s.input.data = l ++ t →
      (iterN backspace t.length s).input.data = l := by
  induction t using List.reverseRecOn with
  | nil =>
    intro l s h
    simpa using h
  | append_singleton t' c ih =>
    intro l s h
    have hne : s.input ≠ "" := by
      intro he
      rw [he] at h
      exact absurd h (by simp)
    have hbs : (backspace s).input.data = s.input.data.dropLast := by
      unfold backspace
      rw [if_neg hne]
      rfl
    have hlen : (t' ++ [c]).length = t'.length + 1 := by simp
    rw [hlen]
    show (iterN backspace t'.length (backspace s)).input.data = l
    apply ih
    rw [hbs, h, ← List.append_assoc, List.dropLast_concat]

/-- Claim C8.  Append/backspace round trip: from any state with no active
result, appending any sequence of `n` single-character tokens and then
pressing backspace `n` times returns the input to its value before the
appends (no result-reset branch fires because the result stays empty, and
each backspace removes exactly the last appended character). -/
theorem C8_append_backspace_roundtrip (p : JSPrims) (s : CalcState) (cs : List Char)
    (h : s.result = "") :
    (iterN backspace cs.length
        (cs.foldl (fun st c => appendToInput p (String.mk [c]) st) s)).input = s.input := by
  have h1 := appendChars_state p cs s h
  have h2 := backspace_iterN cs s.input.data _ h1.1
  exact String.ext h2

/-- Claim C8, witness: appending `1` then `2` to the initial state and
backspacing twice restores the empty input. -/
theorem C8_append_backspace_roundtrip_witness :
    (iterN backspace 2
        (['1', '2'].foldl (fun st c => appendToInput modelPrims (String.mk [c]) st)
          initialState)).input = "" := by
  exact (C8_append_backspace_roundtrip modelPrims initialState ['1', '2'] rfl).trans rfl

/-- Claim C9.  `formatNumber` is the identity on every string argument,
and `calculate` always hands it the string produced by
`new Decimal(eval(...)).toString()`; hence on every successful
calculation the stored result and the display are exactly that decimal
string — the numeric formatting branches of `formatNumber` are never
exercised on the calculation path. -/
theorem C9_format_identity_on_calculate :
    (∀ str : String, formatNumber (NumOrStr.str str) = str) ∧
    (∀ (p : JSPrims) (s : CalcState) (v : JSVal),
        s.input ≠ "" →
        p.evalStr (prepareInputForCalculation s.input s.mode) = some v →
        (calculate p s).result = decimalToString p v ∧
        (calculate p s).display = decimalToString p v) := by
  constructor
  · intro str
    rfl
  · intro p s v hin hev
    unfold calculate
    rw [if_neg hin, hev]
    exact ⟨rfl, rfl⟩

/-- Claim C9, witness at the successful calculation of `1/0`: the result
and the display are the verbatim decimal rendering `Infinity`. -/
theorem C9_format_identity_witness :
    (calculate modelPrims stateDiv0).result = decimalToString modelPrims JSVal.inf ∧
    (calculate modelPrims stateDiv0).display = decimalToString modelPrims JSVal.inf := by
  exact C9_format_identity_on_calculate.2 modelPrims stateDiv0 JSVal.inf
    (by decide) (by decide)
